import Mathlib

/-!
Verification of the real-time voice session engine of the
GC-MIA-AI-Assistant repository (src/App.tsx).

The engine's shared mutable session state (React refs and state hooks)
is embedded as the structure `AppState`; each inbound-message handler
branch of `onmessage`, the `source.onended` callback, `stopSession`
and `handleSendText` are embedded as pure state-transition functions,
translated line by line from src/App.tsx.  Audio-clock times and
buffer durations are modelled as rationals; playback sources
(AudioBufferSourceNode objects held in `activeSourcesRef`) are
modelled by freshly allocated natural-number identifiers.
-/

namespace GCMia

/-- `ConnectionStatus` from src/types (enum DISCONNECTED / CONNECTING /
CONNECTED / ERROR). -/
inductive ConnectionStatus where
  | DISCONNECTED
  | CONNECTING
  | CONNECTED
  | ERROR
deriving DecidableEq, Repr

/-- Speaker role of a transcript entry. -/
inductive Role where
  | user
  | assistant
deriving DecidableEq, Repr

/-- `TranscriptionEntry` from src/types: role, text, timestamp
(`Date.now()` milliseconds, an integer). -/
structure TranscriptionEntry where
  role : Role
  text : String
  timestamp : Int
deriving DecidableEq, Repr

/-- The shared session state of App.tsx: the React state hooks and refs
that the event handlers read and write.  `sessionPromise`, `inputCtx`
and `outputCtx` record whether `sessionPromiseRef`,
`inputAudioContextRef` and `outputAudioContextRef` currently hold a
value (non-null).  `activeSources` is the content of
`activeSourcesRef` (source nodes as allocated ids), `activeAudioCount`
is `activeAudioCountRef` (a plain JS number that the code decrements,
so an integer), `nextStartTime` is `nextStartTimeRef`. -/
structure AppState where
  status : ConnectionStatus
  transcriptions : List TranscriptionEntry
  isUserSpeaking : Bool
  isAiSpeaking : Bool
  isProcessingTool : Bool
  errorMsg : Option String
  textInput : String
  nextStartTime : Rat
  activeSources : List Nat
  activeAudioCount : Int
  sessionPromise : Bool
  inputCtx : Bool
  outputCtx : Bool
  currentInputTranscription : String
  currentOutputTranscription : String
  nextSourceId : Nat
deriving DecidableEq, Repr

/-- The session state right after a successful `startSession` and
`onopen`: connected, both audio contexts open, session promise stored,
all counters and buffers empty. -/
def connectedInit : AppState :=
  { status := .CONNECTED
    transcriptions := []
    isUserSpeaking := false
    isAiSpeaking := false
    isProcessingTool := false
    errorMsg := none
    textInput := ""
    nextStartTime := 0
    activeSources := []
    activeAudioCount := 0
    sessionPromise := true
    inputCtx := true
    outputCtx := true
    currentInputTranscription := ""
    currentOutputTranscription := ""
    nextSourceId := 0 }

/-- One inbound audio part of a `modelTurn` message (App.tsx lines
164-191).  `clock` is `ctx.currentTime` when the part is processed,
`dur` is `audioBuffer.duration`, `decodeOk` tells whether
`decodeAudioData(decode(base64Audio), ...)` succeeded (the `try`
body) or threw (the `catch` branch).  Returns the new state and the
time passed to `source.start` (`none` when nothing was scheduled).
Field updates follow the statement order of the source:
`setIsAiSpeaking(true); activeAudioCountRef.current++;
nextStartTimeRef.current = Math.max(nextStartTimeRef.current,
ctx.currentTime); try { ... source.start(nextStartTimeRef.current);
nextStartTimeRef.current += audioBuffer.duration;
activeSourcesRef.current.add(source); } catch (err) {
activeAudioCountRef.current--; }` -/
def enqueueAudio (s : AppState) (clock dur : Rat) (decodeOk : Bool) :
    AppState × Option Rat :=
  if s.outputCtx = true then
    let s1 : AppState :=
      { s with isAiSpeaking := true
               activeAudioCount := s.activeAudioCount + 1
               nextStartTime := max s.nextStartTime clock }
    if decodeOk then
      ({ s1 with activeSources := s1.activeSources ++ [s1.nextSourceId]
                 nextSourceId := s1.nextSourceId + 1
                 nextStartTime := s1.nextStartTime + dur },
       some s1.nextStartTime)
    else
      ({ s1 with activeAudioCount := s1.activeAudioCount - 1 }, none)
  else (s, none)

/-- The `source.onended` callback (App.tsx lines 179-183):
`activeSourcesRef.current.delete(source); activeAudioCountRef.current--;
if (activeAudioCountRef.current <= 0) { setIsAiSpeaking(false);
activeAudioCountRef.current = 0; }` -/
def sourceEnded (s : AppState) (id : Nat) : AppState :=
  let s1 : AppState :=
    { s with activeSources := s.activeSources.erase id
             activeAudioCount := s.activeAudioCount - 1 }
  if s1.activeAudioCount ≤ 0 then
    { s1 with isAiSpeaking := false, activeAudioCount := 0 }
  else s1

/-- The `serverContent.interrupted` handler (App.tsx lines 210-216):
stop every source in `activeSourcesRef` (returned as the second
component, the list of sources that received `stop()`), clear the
set, zero the counter, set `nextStartTimeRef.current = 0`, and
`setIsAiSpeaking(false)`. -/
def handleInterrupted (s : AppState) : AppState × List Nat :=
  ({ s with activeSources := []
            activeAudioCount := 0
            nextStartTime := 0
            isAiSpeaking := false },
   s.activeSources)

/-- Modelled from the spec (section 4.3 `interrupt()`), for comparison
with the code's `handleInterrupted`: the spec says the handler resets
`nextStartTime` to the current output clock time, not zero. -/
def handleInterruptedSpec (s : AppState) (clock : Rat) : AppState :=
  { s with activeSources := []
           activeAudioCount := 0
           nextStartTime := clock
           isAiSpeaking := false }

/-- Removal of leading and trailing whitespace, modelling the
JavaScript `String.prototype.trim()` used on the transcription
accumulators and the text input; written with structural recursion so
concrete instances evaluate inside the kernel. -/
def jsTrim (s : String) : String :=
  ⟨((s.data.dropWhile Char.isWhitespace).reverse.dropWhile
      Char.isWhitespace).reverse⟩

/-- The `serverContent.turnComplete` handler (App.tsx lines 196-208):
trim both accumulators; when at least one is non-empty append the
user entry (if any) then the assistant entry (if any), stamped
`Date.now()`; clear both accumulators unconditionally. -/
def handleTurnComplete (s : AppState) (now : Int) : AppState :=
  let uText := jsTrim s.currentInputTranscription
  let aText := jsTrim s.currentOutputTranscription
  let newTranscriptions :=
    if uText ≠ "" ∨ aText ≠ "" then
      s.transcriptions
        ++ (if uText ≠ "" then [⟨Role.user, uText, now⟩] else [])
        ++ (if aText ≠ "" then [⟨Role.assistant, aText, now⟩] else [])
    else s.transcriptions
  { s with transcriptions := newTranscriptions
           currentInputTranscription := ""
           currentOutputTranscription := "" }

/-- Accumulation of an `inputTranscription` delta (App.tsx line 193). -/
def inputDelta (s : AppState) (t : String) : AppState :=
  { s with currentInputTranscription := s.currentInputTranscription ++ t }

/-- Accumulation of an `outputTranscription` delta (App.tsx line 194). -/
def outputDelta (s : AppState) (t : String) : AppState :=
  { s with currentOutputTranscription := s.currentOutputTranscription ++ t }

/-- Teardown side effects of one `stopSession` call: whether the
session promise was resolved-and-closed, which playback sources
received `stop()`, and whether each audio context was closed. -/
structure StopEffects where
  closedSession : Bool
  stoppedSources : List Nat
  closedInputCtx : Bool
  closedOutputCtx : Bool
deriving DecidableEq, Repr

/-- `StopEffects` of a call that released nothing. -/
def StopEffects.none : StopEffects := ⟨false, [], false, false⟩

/-- `stopSession` (App.tsx lines 39-61): close the session (if a
promise is stored) and null the ref; `stop()` every source in the set
(each wrapped in try/catch) and clear it; zero the counter; close and
null both audio contexts (when present); set status DISCONNECTED and
all three speaking/processing flags false.  `nextStartTimeRef`,
`transcriptions`, `textInput` and the accumulators are not touched. -/
def stopSession (s : AppState) : AppState × StopEffects :=
  ({ s with sessionPromise := false
            activeSources := []
            activeAudioCount := 0
            inputCtx := false
            outputCtx := false
            status := .DISCONNECTED
            isUserSpeaking := false
            isAiSpeaking := false
            isProcessingTool := false },
   ⟨s.sessionPromise, s.activeSources, s.inputCtx, s.outputCtx⟩)

/-- `handleSendText` (App.tsx lines 78-87, first variant):
`const message = customText || textInput.trim(); if (!message ||
!sessionPromiseRef.current) return;` then append a user transcript
entry, forward the message over the session, and clear the text input
when `customText` was falsy (absent or the empty string).  Returns
the new state and the message forwarded over the channel (`none` when
the guard returned early).  `sendMessageOf` is the evaluation of
`customText || textInput.trim()`: JavaScript `||` falls through on the
empty string. -/
def sendMessageOf (s : AppState) (custom : Option String) : String :=
  match custom with
  | some c => if c = "" then jsTrim s.textInput else c
  | none => jsTrim s.textInput

/-- The body of `handleSendText` after the message computation: the
early-return guard and, past it, the transcript append, the channel
send and the conditional clearing of the text input. -/
def handleSendText (s : AppState) (custom : Option String) (now : Int) :
    AppState × Option String :=
  let message := sendMessageOf s custom
  if message = "" ∨ s.sessionPromise = false then (s, none)
  else
    let clearedInput :=
      match custom with
      | some c => if c = "" then "" else s.textInput
      | none => ""
    ({ s with transcriptions :=
                s.transcriptions ++ [⟨Role.user, message, now⟩]
              textInput := clearedInput },
     some message)

/-- Status carried in a tool response payload. -/
inductive ToolStatus where
  | success
  | error
deriving DecidableEq, Repr

/-- One element of `message.toolCall.functionCalls`. -/
structure FunctionCall where
  id : String
  name : String
deriving DecidableEq, Repr

/-- One element of the `functionResponses` array handed to
`session.sendToolResponse`. -/
structure ToolResponse where
  id : String
  name : String
  status : ToolStatus
deriving DecidableEq, Repr

/-- The `toolCall` handler body for one function call, first variant
(App.tsx lines 138-162): calls named `bookAppointment` run the bound
action and answer `{id, name, {status: success}}` from the `try`
body or `{id, name, {status: error}}` from the `catch`; any other
name is ignored (no response).  `actionFails` tells whether the bound
action threw. -/
def dispatchToolCall1 (fc : FunctionCall) (actionFails : Bool) :
    Option ToolResponse :=
  if fc.name = "bookAppointment" then
    if actionFails then some ⟨fc.id, fc.name, ToolStatus.error⟩
    else some ⟨fc.id, fc.name, ToolStatus.success⟩
  else none

/-- The `toolCall` handler body for one function call, second variant
(App.tsx lines 515-541): both the `try` body (after the `fetch` to the
booking backend) and the `catch` branch answer
`{id, name, {status: success}}`. -/
def dispatchToolCall2 (fc : FunctionCall) (actionFails : Bool) :
    Option ToolResponse :=
  if fc.name = "bookAppointment" then
    if actionFails then some ⟨fc.id, fc.name, ToolStatus.success⟩
    else some ⟨fc.id, fc.name, ToolStatus.success⟩
  else none

/-- The `for (const fc of message.toolCall.functionCalls)` loop of the
first variant: the sequence of responses sent over the outbound path.
`actionFails` gives the outcome of the bound action per invocation id. -/
def handleToolCall1 (fcs : List FunctionCall) (actionFails : String → Bool) :
    List ToolResponse :=
  fcs.filterMap (fun fc => dispatchToolCall1 fc (actionFails fc.id))

/-- The same loop in the second variant. -/
def handleToolCall2 (fcs : List FunctionCall) (actionFails : String → Bool) :
    List ToolResponse :=
  fcs.filterMap (fun fc => dispatchToolCall2 fc (actionFails fc.id))

/-- An audio-scheduling run: process a list of inbound audio parts
(each a pair of arrival clock time and decoded buffer duration, all
decoding successfully, with no interrupt in between) and collect the
scheduled start times. -/
def scheduleRun (s : AppState) : List (Rat × Rat) → List Rat
  | [] => []
  | (c, d) :: rest =>
    let p := enqueueAudio s c d true
    match p.2 with
    | some st => st :: scheduleRun p.1 rest
    | none => scheduleRun p.1 rest

/-- Start times of a run as a function of the initial `nextStartTime`
alone (used to factor proofs about `scheduleRun`). -/
def pureStarts : Rat → List (Rat × Rat) → List Rat
  | _, [] => []
  | n, (c, d) :: rest => max n c :: pureStarts (max n c + d) rest

/-- One event-handler execution touching the session state. -/
inductive Event where
  | enqueue (clock dur : Rat) (ok : Bool)
  | ended (id : Nat)
  | interrupted
  | turnComplete (now : Int)
  | inDelta (t : String)
  | outDelta (t : String)
  | sendText (custom : Option String) (now : Int)
  | stop
deriving DecidableEq, Repr

/-- Effect of one event-handler execution on the session state. -/
def step (s : AppState) : Event → AppState
  | .enqueue c d ok => (enqueueAudio s c d ok).1
  | .ended id => sourceEnded s id
  | .interrupted => (handleInterrupted s).1
  | .turnComplete now => handleTurnComplete s now
  | .inDelta t => inputDelta s t
  | .outDelta t => outputDelta s t
  | .sendText cu now => (handleSendText s cu now).1
  | .stop => (stopSession s).1

/-- Run a sequence of event-handler executions. -/
def run (s : AppState) (es : List Event) : AppState := es.foldl step s

/-- The playback-state invariant of claim C7 (amended): the live
counter is non-negative and never exceeds the number of sources in
the live set, and the assistant-speaking flag can only be false when
the counter is zero.  The counter can fall strictly below the live
count: a completion callback of a forcibly-stopped source may fire
after a later enqueue (the `delete` is then a no-op but the decrement
still runs), so only the inequality is invariant. -/
def countInv (s : AppState) : Prop :=
  0 ≤ s.activeAudioCount ∧
  s.activeAudioCount ≤ (s.activeSources.length : Int) ∧
  (s.isAiSpeaking = false → s.activeAudioCount = 0)

/-- A realizable trace on which the counter desynchronizes from the
live set: source 0 is started, the interrupt stops it (clearing the
set), a new source 1 is enqueued, and only then does source 0's
completion callback fire — `stop()` makes `onended` fire
asynchronously, so it can land after the next enqueue when the
interrupt and the next turn's audio arrive in one burst. -/
def staleEndedTrace : List Event :=
  [Event.enqueue 0 1 true, Event.interrupted,
   Event.enqueue 1 1 true, Event.ended 0]

/-- A connected state in which one source is live and the scheduler is
ahead of the clock; used as concrete input for several claims. -/
def exStateC2 : AppState :=
  { connectedInit with nextStartTime := 5
                       activeSources := [0]
                       activeAudioCount := 1
                       isAiSpeaking := true
                       nextSourceId := 1 }

/-- A connected state whose scheduler clock is behind the output
clock; concrete input for claim C6. -/
def exStateC6 : AppState :=
  { connectedInit with nextStartTime := 2 }

/-- A connected state with a pending user transcription accumulator;
concrete input for claim C4. -/
def exStateC4 : AppState :=
  { connectedInit with currentInputTranscription := " hi " }

/-- A state whose status is ERROR while the session promise is still
stored (as after the `onerror` callback, which sets the status but
does not clear `sessionPromiseRef`); concrete input for claim C9. -/
def errState : AppState :=
  { connectedInit with status := .ERROR, textInput := "hi" }

/-- Claim C8: `stopSession` is total, moves the status to
DISCONNECTED unconditionally, and is idempotent: the second call
leaves the state unchanged and releases nothing (no session close, no
source stop, no context close). -/
theorem stopSession_idempotent (s : AppState) :
    (stopSession s).1.status = ConnectionStatus.DISCONNECTED ∧
    stopSession (stopSession s).1 = ((stopSession s).1, StopEffects.none) :=
  ⟨rfl, rfl⟩

/-- Claim C2 (counterexample): the `interrupted` handler sets
`nextStartTime` to zero, not to the current output clock time.  On a
state with `nextStartTime = 5` at output clock time 3 the claim
demands 3 but the code produces 0. -/
theorem interrupted_nextStartTime_counterexample :
    (handleInterrupted exStateC2).1.nextStartTime = 0 ∧
    (handleInterruptedSpec exStateC2 3).nextStartTime = 3 ∧
    (handleInterrupted exStateC2).1.nextStartTime ≠
      (handleInterruptedSpec exStateC2 3).nextStartTime := by
  decide

/-- Claim C2 (amended): the `interrupted` handler stops every live
source, clears the live set, zeroes the counter, sets the speaking
flag to false synchronously, and resets `nextStartTime` to zero (not
to the clock); because every later enqueue takes the maximum with the
then-current clock, resetting to zero is observationally equivalent
to resetting to the interrupt-time clock `k` for any later enqueue at
clock `c ≥ k`. -/
theorem interrupted_resets (s : AppState) (k c d : Rat) (ok : Bool)
    (hctx : s.outputCtx = true) (hk : 0 ≤ k) (hkc : k ≤ c) :
    (handleInterrupted s).2 = s.activeSources ∧
    (handleInterrupted s).1.activeSources = [] ∧
    (handleInterrupted s).1.activeAudioCount = 0 ∧
    (handleInterrupted s).1.nextStartTime = 0 ∧
    (handleInterrupted s).1.isAiSpeaking = false ∧
    enqueueAudio (handleInterrupted s).1 c d ok
      = enqueueAudio (handleInterruptedSpec s k) c d ok := by
  refine ⟨rfl, rfl, rfl, rfl, rfl, ?_⟩
  have h0 : max (0 : Rat) c = c := max_eq_right (le_trans hk hkc)
  have h1 : max k c = c := max_eq_right hkc
  simp [enqueueAudio, handleInterrupted, handleInterruptedSpec, hctx, h0, h1]

/-- Witness for `interrupted_resets` at a concrete state and clock. -/
theorem interrupted_resets_witness :
    enqueueAudio (handleInterrupted exStateC2).1 4 1 true
      = enqueueAudio (handleInterruptedSpec exStateC2 3) 4 1 true :=
  (interrupted_resets exStateC2 3 4 1 true rfl (by norm_num) (by norm_num)).2.2.2.2.2

/-- Claim C3: after the `interrupted` handler the live set is empty
and `nextStartTime` is at or before the output clock; any later
enqueue that schedules a buffer schedules it no earlier than the
output clock (never into the past). -/
theorem interrupted_clean_reset (s : AppState) (clock dur : Rat) (ok : Bool)
    (hc : 0 ≤ clock) :
    (handleInterrupted s).1.activeSources = [] ∧
    (handleInterrupted s).1.nextStartTime ≤ clock ∧
    ∀ st : Rat,
      (enqueueAudio (handleInterrupted s).1 clock dur ok).2 = some st →
      clock ≤ st := by
  refine ⟨rfl, hc, ?_⟩
  intro st hst
  unfold enqueueAudio at hst
  split at hst
  · split at hst
    · simp only [Option.some.injEq] at hst
      subst hst
      exact le_max_right _ _
    · exact absurd hst (by simp)
  · exact absurd hst (by simp)

/-- Witness for `interrupted_clean_reset` at a concrete state. -/
theorem interrupted_clean_reset_witness :
    (handleInterrupted exStateC2).1.activeSources = [] ∧
    (handleInterrupted exStateC2).1.nextStartTime ≤ 2 ∧
    (2 : Rat) ≤ 2 := by
  have h := interrupted_clean_reset exStateC2 2 1 true (by norm_num)
  exact ⟨h.1, h.2.1, h.2.2 2 (by decide)⟩

/-- Claim C4: on `turnComplete` both accumulators are trimmed, each
non-empty trimmed accumulator contributes exactly one entry stamped
with the flush time (user before assistant), no appended entry has
empty text, and both accumulators are cleared unconditionally. -/
theorem turnComplete_flush (s : AppState) (now : Int) :
    (handleTurnComplete s now).transcriptions
      = s.transcriptions
        ++ (if jsTrim s.currentInputTranscription ≠ "" then
              [⟨Role.user, jsTrim s.currentInputTranscription, now⟩] else [])
        ++ (if jsTrim s.currentOutputTranscription ≠ "" then
              [⟨Role.assistant, jsTrim s.currentOutputTranscription, now⟩]
            else []) ∧
    (handleTurnComplete s now).currentInputTranscription = "" ∧
    (handleTurnComplete s now).currentOutputTranscription = "" ∧
    ∀ e ∈ (handleTurnComplete s now).transcriptions.drop
            s.transcriptions.length,
      e.text ≠ "" := by
  unfold handleTurnComplete
  by_cases hu : jsTrim s.currentInputTranscription = "" <;>
    by_cases ha : jsTrim s.currentOutputTranscription = "" <;>
      simp [hu, ha, List.drop_left]

/-- Witness for `turnComplete_flush` at a concrete state. -/
theorem turnComplete_flush_witness :
    (handleTurnComplete exStateC4 5).transcriptions
      = [⟨Role.user, "hi", 5⟩] ∧
    (handleTurnComplete exStateC4 5).currentInputTranscription = "" := by
  have h := turnComplete_flush exStateC4 5
  exact ⟨(h.1).trans (by decide), h.2.1⟩

theorem enqueueAudio_ok (s : AppState) (c d : Rat)
    (h : s.outputCtx = true) :
    enqueueAudio s c d true =
      ({ s with isAiSpeaking := true
                activeAudioCount := s.activeAudioCount + 1
                nextStartTime := max s.nextStartTime c + d
                activeSources := s.activeSources ++ [s.nextSourceId]
                nextSourceId := s.nextSourceId + 1 },
       some (max s.nextStartTime c)) := by
  simp [enqueueAudio, h]

theorem scheduleRun_eq_pureStarts (evs : List (Rat × Rat)) :
    ∀ s : AppState, s.outputCtx = true →
      scheduleRun s evs = pureStarts s.nextStartTime evs := by
  induction evs with
  | nil => intro s _; rfl
  | cons p rest ih =>
    intro s h
    obtain ⟨c, d⟩ := p
    simp only [scheduleRun, enqueueAudio_ok s c d h, pureStarts]
    exact congrArg (fun l => max s.nextStartTime c :: l) (ih _ h)

theorem pureStarts_getD (evs : List (Rat × Rat)) :
    ∀ (n : Rat) (k : Nat), k + 1 < evs.length →
      (pureStarts n evs).getD (k + 1) 0
        = max ((pureStarts n evs).getD k 0 + (evs.getD k (0, 0)).2)
              ((evs.getD (k + 1) (0, 0)).1) := by
  induction evs with
  | nil => intro n k h; simp at h
  | cons p rest ih =>
    intro n k h
    obtain ⟨c, d⟩ := p
    cases k with
    | zero =>
      cases rest with
      | nil => simp at h
      | cons q r2 =>
        obtain ⟨c2, d2⟩ := q
        simp [pureStarts, List.getD_cons_succ, List.getD_cons_zero]
    | succ k =>
      have h2 : k + 1 < rest.length := by
        simpa using Nat.lt_of_succ_lt_succ h
      simpa [pureStarts, List.getD_cons_succ] using ih (max n c + d) k h2

/-- Claim C1 (counterexample): with two successfully decoded buffers
of duration 1 each, the first arriving at output clock 0 and the
second at output clock 10 (after the first has finished playing), the
scheduled start times are 0 and 10, so `start_2 = start_1 + d_1`
fails even though no interrupt occurred between them. -/
theorem scheduleRun_gap_counterexample :
    scheduleRun connectedInit [(0, 1), (10, 1)] = [0, 10] ∧
    (scheduleRun connectedInit [(0, 1), (10, 1)]).getD 1 0
      ≠ (scheduleRun connectedInit [(0, 1), (10, 1)]).getD 0 0 + 1 := by
  have hrun : scheduleRun connectedInit [(0, 1), (10, 1)] = [0, 10] := by
    rw [scheduleRun_eq_pureStarts _ _ rfl]
    simp only [pureStarts, connectedInit]
    norm_num [max_def]
  refine ⟨hrun, ?_⟩
  rw [hrun]
  norm_num

/-- Claim C1 (amended): in a run of successfully decoded buffers with
no interrupt, each scheduled start obeys
`start_(k+1) = max (start_k + d_k) clock_(k+1)` — so buffers never
overlap and are never scheduled into the past — and the gapless
equality `start_(k+1) = start_k + d_k` holds whenever the next buffer
arrives no later than the scheduled end of the previous one
(`clock_(k+1) ≤ start_k + d_k`). -/
theorem scheduleRun_start_times (s : AppState) (evs : List (Rat × Rat))
    (k : Nat) (hctx : s.outputCtx = true) (hk : k + 1 < evs.length) :
    (scheduleRun s evs).getD (k + 1) 0
      = max ((scheduleRun s evs).getD k 0 + (evs.getD k (0, 0)).2)
            ((evs.getD (k + 1) (0, 0)).1) ∧
    ((evs.getD (k + 1) (0, 0)).1
        ≤ (scheduleRun s evs).getD k 0 + (evs.getD k (0, 0)).2 →
      (scheduleRun s evs).getD (k + 1) 0
        = (scheduleRun s evs).getD k 0 + (evs.getD k (0, 0)).2) := by
  rw [scheduleRun_eq_pureStarts evs s hctx]
  have h := pureStarts_getD evs s.nextStartTime k hk
  exact ⟨h, fun hle => by rw [h]; exact max_eq_left hle⟩

/-- Witness for `scheduleRun_start_times`: two buffers of durations 1
and 2, the second arriving at clock 1 which equals the scheduled end
of the first, start gaplessly at 0 and 1. -/
theorem scheduleRun_start_times_witness :
    (scheduleRun connectedInit [(0, 1), (1, 2)]).getD 1 0
      = (scheduleRun connectedInit [(0, 1), (1, 2)]).getD 0 0 + 1 := by
  have hrun : scheduleRun connectedInit [(0, 1), (1, 2)] = [0, 1] := by
    rw [scheduleRun_eq_pureStarts _ _ rfl]
    simp only [pureStarts, connectedInit]
    norm_num [max_def]
  have h := scheduleRun_start_times connectedInit [(0, 1), (1, 2)] 0 rfl
    (by norm_num)
  exact h.2 (by rw [hrun]; norm_num)

/-- Claim C6 (counterexample): a buffer whose decode fails does change
`nextStartTime` — the handler re-bases it to the output clock before
the `try` block, so on a state with `nextStartTime = 2` a failing
buffer arriving at clock 10 leaves `nextStartTime = 10`, not 2. -/
theorem enqueueFail_nextStartTime_counterexample :
    exStateC6.nextStartTime = 2 ∧
    (enqueueAudio exStateC6 10 1 false).1.nextStartTime = 10 ∧
    (10 : Rat) ≠ 2 := by
  refine ⟨rfl, ?_, by norm_num⟩
  norm_num [enqueueAudio, exStateC6, connectedInit, max_def]

/-- Claim C6 (amended): a failing buffer schedules nothing, leaves the
in-flight counter net-unchanged, leaves the live set, the status and
the error message untouched, and moves `nextStartTime` only up to the
current output clock (`max nextStartTime clock`); since the clock is
monotone, every subsequent enqueue behaves exactly as if the failing
buffer had never arrived (apart from the speaking flag it set). -/
theorem enqueueFail_isolated (s : AppState) (clock dur : Rat)
    (hctx : s.outputCtx = true) :
    (enqueueAudio s clock dur false).2 = none ∧
    (enqueueAudio s clock dur false).1.activeAudioCount
      = s.activeAudioCount ∧
    (enqueueAudio s clock dur false).1.activeSources = s.activeSources ∧
    (enqueueAudio s clock dur false).1.status = s.status ∧
    (enqueueAudio s clock dur false).1.errorMsg = s.errorMsg ∧
    (enqueueAudio s clock dur false).1.nextStartTime
      = max s.nextStartTime clock ∧
    ∀ (c2 d2 : Rat) (ok : Bool), clock ≤ c2 →
      enqueueAudio (enqueueAudio s clock dur false).1 c2 d2 ok
        = enqueueAudio { s with isAiSpeaking := true } c2 d2 ok := by
  refine ⟨by simp [enqueueAudio, hctx], by simp [enqueueAudio, hctx],
    by simp [enqueueAudio, hctx], by simp [enqueueAudio, hctx],
    by simp [enqueueAudio, hctx], by simp [enqueueAudio, hctx], ?_⟩
  intro c2 d2 ok hc
  have hmax : max (max s.nextStartTime clock) c2 = max s.nextStartTime c2 := by
    rw [max_assoc, max_eq_right hc]
  simp [enqueueAudio, hctx, hmax]

/-- Witness for `enqueueFail_isolated` at a concrete state. -/
theorem enqueueFail_isolated_witness :
    enqueueAudio (enqueueAudio exStateC6 10 1 false).1 11 2 true
      = enqueueAudio { exStateC6 with isAiSpeaking := true } 11 2 true := by
  have h := enqueueFail_isolated exStateC6 10 1 rfl
  exact h.2.2.2.2.2.2 11 2 true (by norm_num)

theorem dispatchToolCall1_some (fc : FunctionCall) (b : Bool)
    (r : ToolResponse) (h : dispatchToolCall1 fc b = some r) :
    r.id = fc.id := by
  unfold dispatchToolCall1 at h
  split at h
  · split at h <;> (cases h; rfl)
  · cases h

theorem toolCall1_filter_nil (t : List FunctionCall)
    (fails : String → Bool) (x : String)
    (hx : ∀ fc ∈ t, fc.id ≠ x) :
    (handleToolCall1 t fails).filter (fun r => r.id == x) = [] := by
  induction t with
  | nil => rfl
  | cons g t2 ih =>
    have hg : g.id ≠ x := hx g (List.mem_cons_self g t2)
    have ht2 : ∀ fc ∈ t2, fc.id ≠ x := fun fc hm => hx fc (List.mem_cons_of_mem g hm)
    rw [handleToolCall1, List.filterMap_cons]
    cases hd : dispatchToolCall1 g (fails g.id) with
    | none => exact ih ht2
    | some r =>
      have hr : r.id = x ↔ False := by
        simp [dispatchToolCall1_some g _ r hd, hg]
      rw [List.filter_cons]
      simp only [beq_iff_eq, hr]
      exact ih ht2

/-- Claim C5 (counterexample): in the second variant of the toolCall
handler, a failing `bookAppointment` action is answered with status
`success`, not `error`, contradicting the claim that every failing
dispatched invocation is answered with status error. -/
theorem toolError_variant2_counterexample :
    dispatchToolCall2 ⟨"call-1", "bookAppointment"⟩ true
      = some ⟨"call-1", "bookAppointment", ToolStatus.success⟩ ∧
    ToolStatus.success ≠ ToolStatus.error := by
  decide

/-- Claim C5 (amended): a failing dispatched `bookAppointment`
invocation is answered exactly once, carrying the invocation's id and
name; in the first handler variant the response has status `error`,
but in the second variant it has status `success`.  Over a toolCall
message with distinct invocation ids, the first variant sends exactly
one response for the failing id (so no id is answered twice). -/
theorem toolError_response (fc : FunctionCall)
    (hname : fc.name = "bookAppointment") :
    dispatchToolCall1 fc true = some ⟨fc.id, fc.name, ToolStatus.error⟩ ∧
    dispatchToolCall2 fc true = some ⟨fc.id, fc.name, ToolStatus.success⟩ ∧
    ∀ (fcs : List FunctionCall) (fails : String → Bool),
      (fcs.map FunctionCall.id).Nodup → fc ∈ fcs → fails fc.id = true →
      (handleToolCall1 fcs fails).filter (fun r => r.id == fc.id)
        = [⟨fc.id, fc.name, ToolStatus.error⟩] := by
  refine ⟨by simp [dispatchToolCall1, hname], by simp [dispatchToolCall2, hname], ?_⟩
  intro fcs fails
  induction fcs with
  | nil => intro _ hmem _; cases hmem
  | cons g t ih =>
    intro hnodup hmem hfail
    have hnodup2 : (t.map FunctionCall.id).Nodup :=
      (List.nodup_cons.mp hnodup).2
    have hgid : g.id ∉ t.map FunctionCall.id :=
      (List.nodup_cons.mp hnodup).1
    rcases List.mem_cons.mp hmem with hg | ht
    · subst hg
      have htail : ∀ fc2 ∈ t, fc2.id ≠ fc.id := by
        intro fc2 hm heq
        exact hgid (heq ▸ List.mem_map_of_mem FunctionCall.id hm)
      rw [handleToolCall1, List.filterMap_cons]
      have hd : dispatchToolCall1 fc (fails fc.id)
          = some ⟨fc.id, fc.name, ToolStatus.error⟩ := by
        simp [dispatchToolCall1, hname, hfail]
      rw [hd, List.filter_cons]
      simp only [beq_self_eq_true, if_pos]
      exact congrArg _ (toolCall1_filter_nil t fails fc.id htail)
    · have hgne : g.id ≠ fc.id := by
        intro heq
        exact hgid (heq ▸ List.mem_map_of_mem FunctionCall.id ht)
      rw [handleToolCall1, List.filterMap_cons]
      cases hd : dispatchToolCall1 g (fails g.id) with
      | none => exact ih hnodup2 ht hfail
      | some r =>
        have hr : r.id = fc.id ↔ False := by
          simp [dispatchToolCall1_some g _ r hd, hgne]
        rw [List.filter_cons]
        simp only [beq_iff_eq, hr]
        exact ih hnodup2 ht hfail

/-- Witness for `toolError_response` at a concrete invocation. -/
theorem toolError_response_witness :
    (handleToolCall1 [⟨"call-1", "bookAppointment"⟩]
        (fun _ => true)).filter (fun r => r.id == "call-1")
      = [⟨"call-1", "bookAppointment", ToolStatus.error⟩] :=
  (toolError_response ⟨"call-1", "bookAppointment"⟩ rfl).2.2
    [⟨"call-1", "bookAppointment"⟩] (fun _ => true)
    (by decide) (by decide) rfl

theorem handleSendText_frame (s : AppState) (custom : Option String)
    (now : Int) :
    (handleSendText s custom now).1.activeAudioCount
      = s.activeAudioCount ∧
    (handleSendText s custom now).1.activeSources = s.activeSources ∧
    (handleSendText s custom now).1.isAiSpeaking = s.isAiSpeaking := by
  simp only [handleSendText]
  split <;> simp

theorem enqueueAudio_fail (s : AppState) (c d : Rat)
    (h : s.outputCtx = true) :
    enqueueAudio s c d false =
      ({ s with isAiSpeaking := true
                nextStartTime := max s.nextStartTime c }, none) := by
  simp [enqueueAudio, h]

theorem enqueueAudio_noctx (s : AppState) (c d : Rat) (ok : Bool)
    (h : ¬s.outputCtx = true) :
    enqueueAudio s c d ok = (s, none) := by
  simp [enqueueAudio, h]

theorem step_countInv (s : AppState) (e : Event) (hs : countInv s) :
    countInv (step s e) := by
  obtain ⟨h0, hcount, hflag⟩ := hs
  cases e with
  | enqueue c d ok =>
    show countInv (enqueueAudio s c d ok).1
    by_cases hctx : s.outputCtx = true
    · cases ok with
      | true =>
        rw [enqueueAudio_ok s c d hctx]
        refine ⟨?_, ?_, ?_⟩
        · show 0 ≤ s.activeAudioCount + 1
          omega
        · show s.activeAudioCount + 1
            ≤ ((s.activeSources ++ [s.nextSourceId]).length : Int)
          simp only [List.length_append, List.length_singleton]
          push_cast
          omega
        · intro hf
          simp at hf
      | false =>
        rw [enqueueAudio_fail s c d hctx]
        refine ⟨h0, hcount, ?_⟩
        intro hf
        simp at hf
    · rw [enqueueAudio_noctx s c d ok hctx]
      exact ⟨h0, hcount, hflag⟩
  | ended id =>
    have hle : s.activeSources.length - 1
        ≤ (s.activeSources.erase id).length := by
      by_cases h : id ∈ s.activeSources
      · rw [List.length_erase_of_mem h]
      · rw [List.erase_of_not_mem h]
        omega
    show countInv (sourceEnded s id)
    rw [sourceEnded]
    split
    · rename_i hcond
      refine ⟨le_refl 0, ?_, fun _ => rfl⟩
      show (0 : Int) ≤ ((s.activeSources.erase id).length : Int)
      omega
    · rename_i hcond
      have hcond2 : ¬s.activeAudioCount - 1 ≤ 0 := hcond
      refine ⟨?_, ?_, ?_⟩
      · show 0 ≤ s.activeAudioCount - 1
        omega
      · show s.activeAudioCount - 1
          ≤ ((s.activeSources.erase id).length : Int)
        omega
      · intro hf
        have hf2 : s.isAiSpeaking = false := hf
        have := hflag hf2
        omega
  | interrupted =>
    refine ⟨le_refl 0, ?_, fun _ => rfl⟩
    show (0 : Int) ≤ ((List.length [] : Nat) : Int)
    omega
  | turnComplete now => exact ⟨h0, hcount, hflag⟩
  | inDelta t => exact ⟨h0, hcount, hflag⟩
  | outDelta t => exact ⟨h0, hcount, hflag⟩
  | sendText cu now =>
    obtain ⟨f1, f2, f3⟩ := handleSendText_frame s cu now
    refine ⟨?_, ?_, ?_⟩
    · show 0 ≤ (handleSendText s cu now).1.activeAudioCount
      rw [f1]; exact h0
    · show (handleSendText s cu now).1.activeAudioCount
        ≤ ((handleSendText s cu now).1.activeSources.length : Int)
      rw [f1, f2]; exact hcount
    · intro hf
      show (handleSendText s cu now).1.activeAudioCount = 0
      rw [f1]
      exact hflag (f3 ▸ hf)
  | stop =>
    refine ⟨le_refl 0, ?_, fun _ => rfl⟩
    show (0 : Int) ≤ ((List.length [] : Nat) : Int)
    omega

theorem run_countInv (es : List Event) :
    ∀ s : AppState, countInv s → countInv (run s es) := by
  induction es with
  | nil => intro s hs; exact hs
  | cons e es ih =>
    intro s hs
    exact ih (step s e) (step_countInv s e hs)

/-- Claim C7 (counterexample): both parts of the claimed invariant
fail on realizable traces.  (a) A single buffer whose decode fails,
processed from the freshly connected state, leaves
`activeAudioCount = 0` with `isAiSpeaking = true` (the handler sets
the flag before the `try` block and the `catch` only decrements the
counter), refuting "the flag is false exactly when the count is
zero".  (b) On `staleEndedTrace` — source 0 started, interrupted
(which `stop()`s it, so its `onended` still fires asynchronously),
source 1 enqueued, then source 0's late completion callback delivered
— the callback's `delete` is a no-op but its decrement still runs, so
the counter is 0 and the flag false while source 1 is still live,
refuting "the count equals exactly the number of live sources". -/
theorem speaking_flag_counterexample :
    (run connectedInit [Event.enqueue 0 1 false]).activeAudioCount = 0 ∧
    (run connectedInit [Event.enqueue 0 1 false]).isAiSpeaking = true ∧
    (run connectedInit staleEndedTrace).activeAudioCount = 0 ∧
    (run connectedInit staleEndedTrace).activeSources = [1] ∧
    (run connectedInit staleEndedTrace).isAiSpeaking = false := by
  refine ⟨?_, rfl, ?_, ?_, rfl⟩ <;> decide

/-- Claim C7 (amended): at every point between handler executions —
along every trace of handler events from the freshly connected state,
with no restriction on when completion callbacks fire, so late
callbacks of forcibly-stopped sources are covered — the live counter
is non-negative and never exceeds the number of live (scheduled, not
ended, not stopped) sources, and the speaking flag can only be false
when the counter is zero.  The claimed exact equality and the
converse flag direction fail on realizable traces (see the
counterexample). -/
theorem playback_count_invariant (es : List Event) :
    countInv (run connectedInit es) :=
  run_countInv es connectedInit ⟨le_refl 0, le_refl 0, fun _ => rfl⟩

/-- Claim C9 (counterexample): `handleSendText` appends a transcript
entry and forwards the message even when the status is not Connected:
on a state with status ERROR whose session promise is still stored,
the typed message "hi" is appended and sent. -/
theorem sendText_status_counterexample :
    errState.status ≠ ConnectionStatus.CONNECTED ∧
    (handleSendText errState none 0).2 = some "hi" ∧
    (handleSendText errState none 0).1.transcriptions
      = [⟨Role.user, "hi", 0⟩] := by
  decide

/-- Claim C9 (amended): `handleSendText` appends exactly one user
entry carrying the full message and forwards that message iff the
message is non-empty and a session promise exists; the session status
is not consulted (and is left unchanged), so the effect also occurs
in states that are not Connected; when the guard fails it does
nothing. -/
theorem sendText_guard (s : AppState) (custom : Option String)
    (now : Int) :
    (sendMessageOf s custom ≠ "" ∧ s.sessionPromise = true →
      (handleSendText s custom now).1.transcriptions
        = s.transcriptions ++ [⟨Role.user, sendMessageOf s custom, now⟩] ∧
      (handleSendText s custom now).2 = some (sendMessageOf s custom) ∧
      (handleSendText s custom now).1.status = s.status) ∧
    (sendMessageOf s custom = "" ∨ s.sessionPromise = false →
      handleSendText s custom now = (s, none)) := by
  constructor
  · rintro ⟨h1, h2⟩
    have hneg : ¬(sendMessageOf s custom = "" ∨ s.sessionPromise = false) := by
      simp [h1, h2]
    simp only [handleSendText, if_neg hneg]
    refine ⟨?_, ?_, ?_⟩ <;> trivial
  · intro h
    simp only [handleSendText, if_pos h]

/-- Witness for `sendText_guard` at a concrete state and message. -/
theorem sendText_guard_witness :
    (handleSendText connectedInit (some "yo") 1).2 = some "yo" := by
  have h := sendText_guard connectedInit (some "yo") 1
  exact ((h.1 ⟨by decide, rfl⟩).2.1)

/-- Claim C10 (counterexample): a whitespace-only `customText` passes
the guard — JavaScript `||` only falls through on the empty string —
so calling the send-text operation with the one-space message appends
a transcript entry and forwards the message, contradicting the claim
that a whitespace-only message changes nothing. -/
theorem sendText_whitespace_counterexample :
    jsTrim " " = "" ∧
    (handleSendText connectedInit (some " ") 0).2 = some " " ∧
    (handleSendText connectedInit (some " ") 0).1.transcriptions
      = [⟨Role.user, " ", 0⟩] := by
  decide

/-- Claim C10 (amended): when no session promise exists, or when
`customText` is absent or empty and the typed input trims to the
empty string, the send-text operation changes nothing: the state
(including the text-input buffer) is returned unchanged and no
message is sent.  A whitespace-only non-empty `customText`, however,
is forwarded verbatim (see the counterexample). -/
theorem sendText_noop (s : AppState) (custom : Option String) (now : Int)
    (h : ((custom = none ∨ custom = some "") ∧ jsTrim s.textInput = "")
          ∨ s.sessionPromise = false) :
    handleSendText s custom now = (s, none) := by
  have hmsg : sendMessageOf s custom = "" ∨ s.sessionPromise = false := by
    rcases h with ⟨hc, ht⟩ | hp
    · left
      rcases hc with hc | hc <;> subst hc <;> simp [sendMessageOf, ht]
    · right; exact hp
  simp only [handleSendText, if_pos hmsg]

/-- Witness for `sendText_noop` at a concrete state. -/
theorem sendText_noop_witness :
    handleSendText connectedInit none 0 = (connectedInit, Option.none) :=
  sendText_noop connectedInit none 0 (Or.inl ⟨Or.inl rfl, rfl⟩)

end GCMia
